import Mathlib

/-!
Shallow embedding of `src/dot_matrix_sheet.c` (the final, authoritative variant
of the Dot-Matrix-Sheet program) and proofs about it.

Modelling conventions:
* C `float` values are modelled as real numbers (`ℝ`); `sqrtf` is `Real.sqrt`.
* The global `g_dots[GRID_ROWS][GRID_COLS]` array is modelled as a total
  function `ℤ → ℤ → Dot`; the program only ever touches indices in
  `[0, GRID_ROWS) × [0, GRID_COLS)`, and every loop of the C code is embedded
  as an explicit traversal of exactly that index range.
* Stateful C functions become state-passing Lean functions on `Grid` /
  `SimState`.
-/

namespace DotMatrix

/-- Physics constant `SPRING_REST_LENGTH` (15). -/
def SPRING_REST_LENGTH : ℝ := 15

/-- Physics constant `SPRING_STIFFNESS` (0.2). -/
def SPRING_STIFFNESS : ℝ := 0.2

/-- Physics constant `VELOCITY_DAMPING` (0.9). -/
def VELOCITY_DAMPING : ℝ := 0.9

/-- Physics constant `RESTORING_FORCE_STRENGTH` (0.01). -/
def RESTORING_FORCE_STRENGTH : ℝ := 0.01

/-- Interaction constant `CLICK_DETECTION_RADIUS` (10). -/
def CLICK_DETECTION_RADIUS : ℝ := 10

/-- Grid dimension `GRID_ROWS` (30). -/
def GRID_ROWS : ℤ := 30

/-- Grid dimension `GRID_COLS` (40). -/
def GRID_COLS : ℤ := 40

/-- Window dimension `WINDOW_WIDTH` (800). -/
def WINDOW_WIDTH : ℝ := 800

/-- Window dimension `WINDOW_HEIGHT` (600). -/
def WINDOW_HEIGHT : ℝ := 600

/-- The C struct `Dot`: position, velocity, rest position and the pinned flag. -/
@[ext]
structure Dot where
  x : ℝ
  y : ℝ
  vx : ℝ
  vy : ℝ
  original_x : ℝ
  original_y : ℝ
  fixed : Bool

/-- The dot array `g_dots`, indexed by (row, col). -/
abbrev Grid := ℤ → ℤ → Dot

/-- Write one cell of the dot array (`g_dots[r][c] = d`). -/
def setDot (g : Grid) (r c : ℤ) (d : Dot) : Grid :=
  fun r' c' => if r' = r ∧ c' = c then d else g r' c'

/-- The C function `initialize_grid`: evenly spaced dots centered in the
window, at rest (position = rest position, zero velocity); only the two top
corner dots `(0,0)` and `(0, GRID_COLS-1)` have `fixed = true`. -/
noncomputable def initialize_grid : Grid := fun row col =>
  let start_x : ℝ := (WINDOW_WIDTH - ((GRID_COLS : ℝ) - 1) * SPRING_REST_LENGTH) / 2
  let start_y : ℝ := (WINDOW_HEIGHT - ((GRID_ROWS : ℝ) - 1) * SPRING_REST_LENGTH) / 2
  let pos_x : ℝ := start_x + (col : ℝ) * SPRING_REST_LENGTH
  let pos_y : ℝ := start_y + (row : ℝ) * SPRING_REST_LENGTH
  { x := pos_x, y := pos_y, vx := 0, vy := 0,
    original_x := pos_x, original_y := pos_y,
    fixed := decide (row = 0 ∧ (col = 0 ∨ col = GRID_COLS - 1)) }

/-- The local `distance` of `apply_spring_force`:
`sqrtf(dx*dx + dy*dy)` with `dx = dot_b->x - dot_a->x`, `dy = dot_b->y - dot_a->y`. -/
noncomputable def springDist (A B : Dot) : ℝ :=
  Real.sqrt ((B.x - A.x) * (B.x - A.x) + (B.y - A.y) * (B.y - A.y))

/-- The local `fx` of `apply_spring_force`:
`force_magnitude * (dx / distance)` with
`force_magnitude = (distance - SPRING_REST_LENGTH) * SPRING_STIFFNESS`. -/
noncomputable def springFx (A B : Dot) : ℝ :=
  (springDist A B - SPRING_REST_LENGTH) * SPRING_STIFFNESS * ((B.x - A.x) / springDist A B)

/-- The local `fy` of `apply_spring_force`: `force_magnitude * (dy / distance)`. -/
noncomputable def springFy (A B : Dot) : ℝ :=
  (springDist A B - SPRING_REST_LENGTH) * SPRING_STIFFNESS * ((B.y - A.y) / springDist A B)

/-- The C function `apply_spring_force(&g[ar][ac], &g[br][bc])`.
If the distance is below `0.001` it returns early ("Avoid division by zero").
Otherwise it adds `(fx, fy)` to the first dot's velocity unless that dot is
fixed, then subtracts `(fx, fy)` from the second dot's velocity unless that
dot is fixed (reading the second dot from memory after the first write, as
the pointer code does). -/
noncomputable def apply_spring_force (g : Grid) (ar ac br bc : ℤ) : Grid :=
  if springDist (g ar ac) (g br bc) < 0.001 then g
  else
    let fx := springFx (g ar ac) (g br bc)
    let fy := springFy (g ar ac) (g br bc)
    let g1 := if (g ar ac).fixed then g
      else setDot g ar ac
        { g ar ac with vx := (g ar ac).vx + fx, vy := (g ar ac).vy + fy }
    if (g1 br bc).fixed then g1
    else setDot g1 br bc
      { g1 br bc with vx := (g1 br bc).vx - fx, vy := (g1 br bc).vy - fy }

/-- The C function `apply_restoring_force`: pulls a non-fixed dot's velocity
toward its rest position. -/
noncomputable def apply_restoring_force (d : Dot) : Dot :=
  if d.fixed then d
  else
    { d with vx := d.vx + (d.original_x - d.x) * RESTORING_FORCE_STRENGTH,
             vy := d.vy + (d.original_y - d.y) * RESTORING_FORCE_STRENGTH }

/-- The body of the first loop of `update_physics` for one dot: damp the
velocity, integrate position, then apply the restoring force; fixed dots are
skipped. -/
noncomputable def integrate_dot (d : Dot) : Dot :=
  if d.fixed then d
  else
    apply_restoring_force
      { d with vx := d.vx * VELOCITY_DAMPING,
               vy := d.vy * VELOCITY_DAMPING,
               x := d.x + d.vx * VELOCITY_DAMPING,
               y := d.y + d.vy * VELOCITY_DAMPING }

/-- The first (integration + restoring) loop of `update_physics`.  Each
iteration reads and writes only its own cell, so the row-major loop is the
pointwise map over the index range `[0, GRID_ROWS) × [0, GRID_COLS)`. -/
noncomputable def integrationPass (g : Grid) : Grid := fun r c =>
  if 0 ≤ r ∧ r < GRID_ROWS ∧ 0 ≤ c ∧ c < GRID_COLS then integrate_dot (g r c) else g r c

/-- The `apply_spring_force` call sites executed for the cell `(row, col)` in
the second loop of `update_physics`, in source order:
up (`row > 0`), down (`row < GRID_ROWS - 1`), left (`col > 0`),
right (`col < GRID_COLS - 1`). -/
def cellApps (row col : ℤ) : List ((ℤ × ℤ) × (ℤ × ℤ)) :=
  (if 0 < row then [((row, col), (row - 1, col))] else []) ++
  (if row < GRID_ROWS - 1 then [((row, col), (row + 1, col))] else []) ++
  (if 0 < col then [((row, col), (row, col - 1))] else []) ++
  (if col < GRID_COLS - 1 then [((row, col), (row, col + 1))] else [])

/-- The full sequence of `apply_spring_force` call sites of one
`update_physics` step, in execution order (row-major over all cells). -/
def springApplications : List ((ℤ × ℤ) × (ℤ × ℤ)) :=
  ((List.range 30).map (fun n : ℕ => (n : ℤ))).flatMap fun row =>
    ((List.range 40).map (fun n : ℕ => (n : ℤ))).flatMap fun col => cellApps row col

/-- The second (spring) loop of `update_physics`: perform the
`apply_spring_force` calls in execution order. -/
noncomputable def springPass (g : Grid) : Grid :=
  springApplications.foldl (fun g e => apply_spring_force g e.1.1 e.1.2 e.2.1 e.2.2) g

/-- The C function `update_physics`: integration + restoring loop, then the
spring loop. -/
noncomputable def update_physics (g : Grid) : Grid := springPass (integrationPass g)

/-- N physics steps with no interaction. -/
noncomputable def stepN : Nat → Grid → Grid
  | 0, g => g
  | n + 1, g => update_physics (stepN n g)

/-- All grid cells in the row-major scan order used by
`find_dot_at_position`. -/
def allCells : List (ℤ × ℤ) :=
  ((List.range 30).map (fun n : ℕ => (n : ℤ))).flatMap fun r =>
    ((List.range 40).map (fun n : ℕ => (n : ℤ))).map fun c => (r, c)

/-- The local `distance` of `find_dot_at_position`: distance from the mouse
position to the dot at cell `rc`. -/
noncomputable def pointerDist (g : Grid) (mouse_x mouse_y : ℤ) (rc : ℤ × ℤ) : ℝ :=
  Real.sqrt (((mouse_x : ℝ) - (g rc.1 rc.2).x) * ((mouse_x : ℝ) - (g rc.1 rc.2).x) +
    ((mouse_y : ℝ) - (g rc.1 rc.2).y) * ((mouse_y : ℝ) - (g rc.1 rc.2).y))

/-- The acceptance test of `find_dot_at_position`:
`distance < CLICK_DETECTION_RADIUS`. -/
def withinRadius (g : Grid) (mouse_x mouse_y : ℤ) (rc : ℤ × ℤ) : Prop :=
  pointerDist g mouse_x mouse_y rc < CLICK_DETECTION_RADIUS

/-- The C function `find_dot_at_position`: scan all cells in row-major order
and return the first one whose dot lies within `CLICK_DETECTION_RADIUS` of the
mouse position. -/
noncomputable def find_dot_at_position (g : Grid) (mouse_x mouse_y : ℤ) : Option (ℤ × ℤ) :=
  allCells.find? fun rc => @decide (withinRadius g mouse_x mouse_y rc) (Classical.propDecidable _)

/-- The C struct `DragState`. -/
structure DragState where
  is_dragging : Bool
  row : ℤ
  col : ℤ

/-- The mutable program state touched by `handle_mouse_event`: the dot grid
and the drag state. -/
structure SimState where
  dots : Grid
  drag : DragState

/-- The mouse events consumed by `handle_mouse_event`
(`SDL_MOUSEBUTTONDOWN` / `SDL_MOUSEBUTTONUP` / `SDL_MOUSEMOTION`), carrying
the mouse position reported by `SDL_GetMouseState`. -/
inductive MouseEvent where
  | buttonDown (mouse_x mouse_y : ℤ)
  | buttonUp (mouse_x mouse_y : ℤ)
  | motion (mouse_x mouse_y : ℤ)

/-- The C function `handle_mouse_event`. -/
noncomputable def handle_mouse_event (s : SimState) (e : MouseEvent) : SimState :=
  match e with
  | .buttonDown mx my =>
    match find_dot_at_position s.dots mx my with
    | some (r, c) =>
      { dots := setDot s.dots r c ({ s.dots r c with fixed := true }),
        drag := { is_dragging := true, row := r, col := c } }
    | none => s
  | .buttonUp _ _ =>
    if s.drag.is_dragging then
      let d := s.dots s.drag.row s.drag.col
      { dots := setDot s.dots s.drag.row s.drag.col ({ d with fixed := false }),
        drag := { s.drag with is_dragging := false } }
    else s
  | .motion mx my =>
    if s.drag.is_dragging then
      let d := s.dots s.drag.row s.drag.col
      { s with dots := setDot s.dots s.drag.row s.drag.col ({ d with x := (mx : ℝ), y := (my : ℝ) }) }
    else s

/-- The initial value of `g_drag_state` (`{false, -1, -1}`). -/
def initial_drag_state : DragState := { is_dragging := false, row := -1, col := -1 }

/-- The program state right after `initialize_grid` has run. -/
noncomputable def initial_state : SimState :=
  { dots := initialize_grid, drag := initial_drag_state }

/-- Process a sequence of mouse events in order. -/
noncomputable def run_events (s : SimState) (events : List MouseEvent) : SimState :=
  events.foldl handle_mouse_event s

/-- Both endpoints of an edge lie in the grid index range. -/
def inGrid (p : ℤ × ℤ) : Prop :=
  0 ≤ p.1 ∧ p.1 < GRID_ROWS ∧ 0 ≤ p.2 ∧ p.2 < GRID_COLS

/-- Structural adjacency of two grid cells: both in range, and the second is
the up, down, left or right neighbor of the first. -/
def Adjacent (a b : ℤ × ℤ) : Prop :=
  inGrid a ∧ inGrid b ∧
    ((b.1 = a.1 - 1 ∧ b.2 = a.2) ∨ (b.1 = a.1 + 1 ∧ b.2 = a.2) ∨
     (b.1 = a.1 ∧ b.2 = a.2 - 1) ∨ (b.1 = a.1 ∧ b.2 = a.2 + 1))

instance : DecidablePred inGrid := fun _ => by unfold inGrid; infer_instance

instance (a b : ℤ × ℤ) : Decidable (Adjacent a b) := by unfold Adjacent; infer_instance

/-! ### Basic lemmas about cell writes -/

lemma setDot_same (g : Grid) (r c : ℤ) (d : Dot) : setDot g r c d r c = d := by
  simp [setDot]

lemma setDot_other (g : Grid) (r c : ℤ) (d : Dot) (r' c' : ℤ) (h : ¬(r' = r ∧ c' = c)) :
    setDot g r c d r' c' = g r' c' := by
  simp [setDot, h]

lemma setDot_self (g : Grid) (r c : ℤ) : setDot g r c (g r c) = g := by
  funext r' c'
  by_cases h : r' = r ∧ c' = c
  · obtain ⟨rfl, rfl⟩ := h
    simp [setDot]
  · simp [setDot, h]

/-! ### How one spring application can change one cell -/

lemma apply_spring_force_cases (g : Grid) (ar ac br bc r c : ℤ) :
    (apply_spring_force g ar ac br bc) r c = g r c ∨
    ((g r c).fixed = false ∧ ∃ v w,
      (apply_spring_force g ar ac br bc) r c = { g r c with vx := v, vy := w }) := by
  unfold apply_spring_force
  split
  · exact Or.inl rfl
  · dsimp only
    by_cases h1 : (g ar ac).fixed = true
    · rw [if_pos h1]
      split
      · exact Or.inl rfl
      · rename_i h2
        by_cases hc : r = br ∧ c = bc
        · obtain ⟨rfl, rfl⟩ := hc
          rw [setDot_same]
          exact Or.inr ⟨by simpa using h2, _, _, rfl⟩
        · rw [setDot_other _ _ _ _ _ _ hc]
          exact Or.inl rfl
    · rw [if_neg h1]
      split
      · rename_i h2
        by_cases hc : r = ar ∧ c = ac
        · obtain ⟨rfl, rfl⟩ := hc
          rw [setDot_same]
          exact Or.inr ⟨by simpa using h1, _, _, rfl⟩
        · rw [setDot_other _ _ _ _ _ _ hc]
          exact Or.inl rfl
      · rename_i h2
        by_cases hc2 : r = br ∧ c = bc
        · obtain ⟨rfl, rfl⟩ := hc2
          rw [setDot_same]
          by_cases hc : r = ar ∧ c = ac
          · obtain ⟨rfl, rfl⟩ := hc
            rw [setDot_same]
            exact Or.inr ⟨by simpa using h1, _, _, rfl⟩
          · rw [setDot_other _ _ _ _ _ _ hc]
            rw [setDot_other _ _ _ _ _ _ hc] at h2
            exact Or.inr ⟨by simpa using h2, _, _, rfl⟩
        · rw [setDot_other _ _ _ _ _ _ hc2]
          by_cases hc : r = ar ∧ c = ac
          · obtain ⟨rfl, rfl⟩ := hc
            rw [setDot_same]
            exact Or.inr ⟨by simpa using h1, _, _, rfl⟩
          · rw [setDot_other _ _ _ _ _ _ hc]
            exact Or.inl rfl

lemma apply_spring_force_fixed_flag (g : Grid) (ar ac br bc r c : ℤ) :
    ((apply_spring_force g ar ac br bc) r c).fixed = (g r c).fixed := by
  rcases apply_spring_force_cases g ar ac br bc r c with h | ⟨hf, v, w, h⟩
  · rw [h]
  · rw [h]

lemma apply_spring_force_fixed_dot (g : Grid) (ar ac br bc r c : ℤ)
    (h : (g r c).fixed = true) : (apply_spring_force g ar ac br bc) r c = g r c := by
  rcases apply_spring_force_cases g ar ac br bc r c with h2 | ⟨hf, v, w, h2⟩
  · exact h2
  · rw [hf] at h
    exact absurd h (by simp)

/-! ### The spring pass and the integration pass preserve fixed dots -/

lemma foldl_spring_fixed_flag (l : List ((ℤ × ℤ) × (ℤ × ℤ))) (r c : ℤ) :
    ∀ g : Grid,
      ((l.foldl (fun g e => apply_spring_force g e.1.1 e.1.2 e.2.1 e.2.2) g) r c).fixed =
        (g r c).fixed := by
  induction l with
  | nil => intro g; rfl
  | cons e l ih =>
    intro g
    rw [List.foldl_cons, ih, apply_spring_force_fixed_flag]

lemma foldl_spring_fixed_dot (l : List ((ℤ × ℤ) × (ℤ × ℤ))) (r c : ℤ) :
    ∀ g : Grid, (g r c).fixed = true →
      (l.foldl (fun g e => apply_spring_force g e.1.1 e.1.2 e.2.1 e.2.2) g) r c = g r c := by
  induction l with
  | nil => intro g _; rfl
  | cons e l ih =>
    intro g hg
    rw [List.foldl_cons,
      ih _ (by rw [apply_spring_force_fixed_flag]; exact hg),
      apply_spring_force_fixed_dot _ _ _ _ _ _ _ hg]

lemma integrate_dot_fixed_flag (d : Dot) : (integrate_dot d).fixed = d.fixed := by
  unfold integrate_dot apply_restoring_force
  split_ifs <;> rfl

lemma integrationPass_fixed_flag (g : Grid) (r c : ℤ) :
    ((integrationPass g) r c).fixed = (g r c).fixed := by
  unfold integrationPass
  split
  · exact integrate_dot_fixed_flag _
  · rfl

lemma integrationPass_fixed_dot (g : Grid) (r c : ℤ) (h : (g r c).fixed = true) :
    (integrationPass g) r c = g r c := by
  unfold integrationPass
  split
  · unfold integrate_dot
    rw [if_pos h]
  · rfl

lemma update_physics_fixed_flag (g : Grid) (r c : ℤ) :
    ((update_physics g) r c).fixed = (g r c).fixed := by
  unfold update_physics springPass
  rw [foldl_spring_fixed_flag, integrationPass_fixed_flag]

lemma update_physics_fixed_dot_eq (g : Grid) (r c : ℤ) (h : (g r c).fixed = true) :
    (update_physics g) r c = g r c := by
  unfold update_physics springPass
  rw [foldl_spring_fixed_dot _ _ _ _ (by rw [integrationPass_fixed_flag]; exact h),
    integrationPass_fixed_dot _ _ _ h]

lemma stepN_fixed_dot (g : Grid) (r c : ℤ) (h : (g r c).fixed = true) :
    ∀ N : Nat, (stepN N g) r c = g r c := by
  intro N
  induction N with
  | zero => rfl
  | succ n ih =>
    have hfix : ((stepN n g) r c).fixed = true := by rw [ih]; exact h
    show (update_physics (stepN n g)) r c = g r c
    rw [update_physics_fixed_dot_eq _ _ _ hfix, ih]

/-! ### The constructed grid is an exact fixed point of the physics step -/

lemma sqrt_225 : Real.sqrt 225 = 15 := by
  rw [show (225 : ℝ) = 15 ^ 2 by norm_num]
  exact Real.sqrt_sq (by norm_num)

lemma apply_spring_force_rest (g : Grid) (ar ac br bc : ℤ)
    (h : springDist (g ar ac) (g br bc) = SPRING_REST_LENGTH) :
    apply_spring_force g ar ac br bc = g := by
  have hfx : springFx (g ar ac) (g br bc) = 0 := by
    unfold springFx
    rw [h, sub_self, zero_mul, zero_mul]
  have hfy : springFy (g ar ac) (g br bc) = 0 := by
    unfold springFy
    rw [h, sub_self, zero_mul, zero_mul]
  unfold apply_spring_force
  rw [if_neg (by rw [h]; norm_num [SPRING_REST_LENGTH])]
  dsimp only
  rw [hfx, hfy]
  have hA : ({ g ar ac with vx := (g ar ac).vx + 0, vy := (g ar ac).vy + 0 } : Dot) = g ar ac := by
    ext <;> simp
  rw [hA, setDot_self, ite_self]
  have hB : ({ g br bc with vx := (g br bc).vx - 0, vy := (g br bc).vy - 0 } : Dot) = g br bc := by
    ext <;> simp
  rw [hB, setDot_self, ite_self]

lemma adjacent_rest_dist (a b : ℤ × ℤ) (h : Adjacent a b) :
    springDist (initialize_grid a.1 a.2) (initialize_grid b.1 b.2) = SPRING_REST_LENGTH := by
  have hx : (initialize_grid b.1 b.2).x - (initialize_grid a.1 a.2).x
      = ((b.2 : ℝ) - (a.2 : ℝ)) * SPRING_REST_LENGTH := by
    show ((WINDOW_WIDTH - ((GRID_COLS : ℝ) - 1) * SPRING_REST_LENGTH) / 2
        + (b.2 : ℝ) * SPRING_REST_LENGTH)
      - ((WINDOW_WIDTH - ((GRID_COLS : ℝ) - 1) * SPRING_REST_LENGTH) / 2
        + (a.2 : ℝ) * SPRING_REST_LENGTH)
      = ((b.2 : ℝ) - (a.2 : ℝ)) * SPRING_REST_LENGTH
    ring
  have hy : (initialize_grid b.1 b.2).y - (initialize_grid a.1 a.2).y
      = ((b.1 : ℝ) - (a.1 : ℝ)) * SPRING_REST_LENGTH := by
    show ((WINDOW_HEIGHT - ((GRID_ROWS : ℝ) - 1) * SPRING_REST_LENGTH) / 2
        + (b.1 : ℝ) * SPRING_REST_LENGTH)
      - ((WINDOW_HEIGHT - ((GRID_ROWS : ℝ) - 1) * SPRING_REST_LENGTH) / 2
        + (a.1 : ℝ) * SPRING_REST_LENGTH)
      = ((b.1 : ℝ) - (a.1 : ℝ)) * SPRING_REST_LENGTH
    ring
  obtain ⟨-, -, hc⟩ := h
  unfold springDist
  rw [hx, hy, show SPRING_REST_LENGTH = (15 : ℝ) from rfl]
  rcases hc with ⟨h1, h2⟩ | ⟨h1, h2⟩ | ⟨h1, h2⟩ | ⟨h1, h2⟩ <;>
    rw [h1, h2] <;> push_cast <;> ring_nf <;>
    rw [show (225 : ℝ) = 15 ^ 2 by norm_num, Real.sqrt_sq (by norm_num : (0:ℝ) ≤ 15)]

lemma mem_cellApps_adjacent {e : (ℤ × ℤ) × (ℤ × ℤ)} {row col : ℤ}
    (hr0 : 0 ≤ row) (hr1 : row < GRID_ROWS) (hc0 : 0 ≤ col) (hc1 : col < GRID_COLS)
    (he : e ∈ cellApps row col) : Adjacent e.1 e.2 := by
  unfold cellApps at he
  simp only [List.mem_append] at he
  unfold Adjacent inGrid GRID_ROWS GRID_COLS
  unfold GRID_ROWS at hr1
  unfold GRID_COLS at hc1
  rcases he with ((h | h) | h) | h
  · by_cases hg : 0 < row
    · rw [if_pos hg] at h
      rw [List.mem_singleton] at h
      subst h
      refine ⟨⟨hr0, hr1, hc0, hc1⟩, ⟨by dsimp only; omega, by dsimp only; omega, hc0, hc1⟩,
        Or.inl ⟨rfl, rfl⟩⟩
    · rw [if_neg hg] at h
      exact absurd h (List.not_mem_nil e)
  · by_cases hg : row < GRID_ROWS - 1
    · rw [if_pos hg] at h
      rw [List.mem_singleton] at h
      subst h
      unfold GRID_ROWS at hg
      refine ⟨⟨hr0, hr1, hc0, hc1⟩, ⟨by dsimp only; omega, by dsimp only; omega, hc0, hc1⟩,
        Or.inr (Or.inl ⟨rfl, rfl⟩)⟩
    · rw [if_neg hg] at h
      exact absurd h (List.not_mem_nil e)
  · by_cases hg : 0 < col
    · rw [if_pos hg] at h
      rw [List.mem_singleton] at h
      subst h
      refine ⟨⟨hr0, hr1, hc0, hc1⟩, ⟨hr0, hr1, by dsimp only; omega, by dsimp only; omega⟩,
        Or.inr (Or.inr (Or.inl ⟨rfl, rfl⟩))⟩
    · rw [if_neg hg] at h
      exact absurd h (List.not_mem_nil e)
  · by_cases hg : col < GRID_COLS - 1
    · rw [if_pos hg] at h
      rw [List.mem_singleton] at h
      subst h
      unfold GRID_COLS at hg
      refine ⟨⟨hr0, hr1, hc0, hc1⟩, ⟨hr0, hr1, by dsimp only; omega, by dsimp only; omega⟩,
        Or.inr (Or.inr (Or.inr ⟨rfl, rfl⟩))⟩
    · rw [if_neg hg] at h
      exact absurd h (List.not_mem_nil e)

lemma mem_springApplications_adjacent {e : (ℤ × ℤ) × (ℤ × ℤ)}
    (he : e ∈ springApplications) : Adjacent e.1 e.2 := by
  unfold springApplications at he
  simp only [List.mem_flatMap, List.mem_map, List.mem_range] at he
  obtain ⟨row, ⟨n, hn, hrow⟩, col, ⟨m, hm, hcol⟩, hcell⟩ := he
  subst hrow
  subst hcol
  exact mem_cellApps_adjacent (by omega) (by unfold GRID_ROWS; omega)
    (by omega) (by unfold GRID_COLS; omega) hcell

lemma foldl_eq_self {α β : Type} (f : β → α → β) (l : List α) (b : β)
    (h : ∀ a ∈ l, f b a = b) : l.foldl f b = b := by
  induction l with
  | nil => rfl
  | cons x xs ih =>
    rw [List.foldl_cons, h x (List.mem_cons_self x xs)]
    exact ih fun a ha => h a (List.mem_cons_of_mem _ ha)

lemma integrate_dot_rest (d : Dot) (h1 : d.vx = 0) (h2 : d.vy = 0)
    (h3 : d.x = d.original_x) (h4 : d.y = d.original_y) : integrate_dot d = d := by
  unfold integrate_dot apply_restoring_force
  split_ifs with hf
  · rfl
  · ext <;> dsimp only <;>
      first
        | rfl
        | (simp only [h1, h2, ← h3, ← h4]; ring)

lemma integrationPass_init_grid : integrationPass initialize_grid = initialize_grid := by
  funext r c
  unfold integrationPass
  split
  · exact integrate_dot_rest _ rfl rfl rfl rfl
  · rfl

lemma springPass_init_grid : springPass initialize_grid = initialize_grid := by
  unfold springPass
  apply foldl_eq_self
  intro e he
  exact apply_spring_force_rest _ _ _ _ _
    (adjacent_rest_dist e.1 e.2 (mem_springApplications_adjacent he))

lemma update_physics_init_grid : update_physics initialize_grid = initialize_grid := by
  unfold update_physics
  rw [integrationPass_init_grid, springPass_init_grid]

lemma stepN_init_grid (N : Nat) : stepN N initialize_grid = initialize_grid := by
  induction N with
  | zero => rfl
  | succ n ih =>
    show update_physics (stepN n initialize_grid) = initialize_grid
    rw [ih, update_physics_init_grid]

lemma initialize_grid_anchor_left : (initialize_grid 0 0).fixed = true := by
  rfl

lemma initialize_grid_anchor_right : (initialize_grid 0 (GRID_COLS - 1)).fixed = true := by
  rfl

/-! ### Counting how often each edge is processed by the spring pass -/

lemma count_flatMap {α β : Type} [BEq β] (l : List α) (f : α → List β) (b : β) :
    (l.flatMap f).count b = (l.map fun a => (f a).count b).sum := by
  induction l with
  | nil => rfl
  | cons x xs ih => simp [List.flatMap_cons, List.count_append, ih]

lemma sum_map_range_delta (f : ℕ → ℕ) (n k : ℕ) (hk : k < n)
    (h : ∀ i, i < n → i ≠ k → f i = 0) : ((List.range n).map f).sum = f k := by
  induction n with
  | zero => omega
  | succ m ih =>
    rw [List.range_succ, List.map_append, List.sum_append]
    by_cases hkm : k = m
    · subst hkm
      have hz : ((List.range k).map f).sum = 0 := by
        apply List.sum_eq_zero
        intro x hx
        simp only [List.mem_map, List.mem_range] at hx
        obtain ⟨i, hi, rfl⟩ := hx
        exact h i (by omega) (by omega)
      simp [hz]
    · rw [ih (by omega) (fun i hi hik => h i (by omega) hik)]
      simp [h m (by omega) (by omega)]

lemma count_springApplications (x : (ℤ × ℤ) × (ℤ × ℤ)) :
    springApplications.count x
      = ((List.range 30).map fun n : ℕ =>
          ((List.range 40).map fun m : ℕ => (cellApps (n : ℤ) (m : ℤ)).count x).sum).sum := by
  unfold springApplications
  simp only [count_flatMap, List.map_map, Function.comp_def]

lemma count_ite_nil {β : Type} [BEq β] [LawfulBEq β] [DecidableEq β]
    (P : Prop) [Decidable P] (e x : β) :
    (if P then [e] else []).count x = if P ∧ e = x then 1 else 0 := by
  by_cases h1 : P
  · rw [if_pos h1, List.count_singleton]
    by_cases h2 : e = x
    · rw [if_pos (show (e == x) = true by simpa using h2),
        if_pos (show P ∧ e = x from ⟨h1, h2⟩)]
    · rw [if_neg (show ¬(e == x) = true by simpa using h2),
        if_neg (show ¬(P ∧ e = x) from fun hc => h2 hc.2)]
  · rw [if_neg h1, if_neg (show ¬(P ∧ e = x) from fun hc => h1 hc.1)]
    rfl

lemma count_cellApps_eq (row col : ℤ) (x : (ℤ × ℤ) × (ℤ × ℤ)) :
    (cellApps row col).count x =
      ((if 0 < row ∧ ((row, col), (row - 1, col)) = x then 1 else 0) +
       (if row < GRID_ROWS - 1 ∧ ((row, col), (row + 1, col)) = x then 1 else 0) +
       (if 0 < col ∧ ((row, col), (row, col - 1)) = x then 1 else 0) +
       (if col < GRID_COLS - 1 ∧ ((row, col), (row, col + 1)) = x then 1 else 0)) := by
  unfold cellApps
  simp only [List.count_append, count_ite_nil]

lemma count_cellApps_of_ne (row col : ℤ) (x : (ℤ × ℤ) × (ℤ × ℤ))
    (hx : x.1 ≠ (row, col)) : (cellApps row col).count x = 0 := by
  rw [count_cellApps_eq]
  have hq : ∀ q : ℤ × ℤ, ¬(((row, col), q) = x) := by
    intro q hqe
    exact hx (by rw [← hqe])
  rw [if_neg (fun hc => hq _ hc.2), if_neg (fun hc => hq _ hc.2),
    if_neg (fun hc => hq _ hc.2), if_neg (fun hc => hq _ hc.2)]

lemma count_cellApps_self (a b : ℤ × ℤ) (h : Adjacent a b) :
    (cellApps a.1 a.2).count (a, b) = 1 := by
  obtain ⟨a1, a2⟩ := a
  obtain ⟨b1, b2⟩ := b
  obtain ⟨⟨ha0, ha1, ha2, ha3⟩, ⟨hb0, hb1, hb2, hb3⟩, hc⟩ := h
  dsimp only at *
  unfold GRID_ROWS GRID_COLS at *
  rw [count_cellApps_eq]
  unfold GRID_ROWS GRID_COLS
  rcases hc with ⟨h1, h2⟩ | ⟨h1, h2⟩ | ⟨h1, h2⟩ | ⟨h1, h2⟩ <;> subst h1 <;> subst h2
  · rw [if_pos ⟨by omega, rfl⟩,
      if_neg (by rintro ⟨-, h⟩; simp only [Prod.mk.injEq] at h; omega),
      if_neg (by rintro ⟨-, h⟩; simp only [Prod.mk.injEq] at h; omega),
      if_neg (by rintro ⟨-, h⟩; simp only [Prod.mk.injEq] at h; omega)]
  · rw [if_neg (by rintro ⟨-, h⟩; simp only [Prod.mk.injEq] at h; omega),
      if_pos ⟨by omega, rfl⟩,
      if_neg (by rintro ⟨-, h⟩; simp only [Prod.mk.injEq] at h; omega),
      if_neg (by rintro ⟨-, h⟩; simp only [Prod.mk.injEq] at h; omega)]
  · rw [if_neg (by rintro ⟨-, h⟩; simp only [Prod.mk.injEq] at h; omega),
      if_neg (by rintro ⟨-, h⟩; simp only [Prod.mk.injEq] at h; omega),
      if_pos ⟨by omega, rfl⟩,
      if_neg (by rintro ⟨-, h⟩; simp only [Prod.mk.injEq] at h; omega)]
  · rw [if_neg (by rintro ⟨-, h⟩; simp only [Prod.mk.injEq] at h; omega),
      if_neg (by rintro ⟨-, h⟩; simp only [Prod.mk.injEq] at h; omega),
      if_neg (by rintro ⟨-, h⟩; simp only [Prod.mk.injEq] at h; omega),
      if_pos ⟨by omega, rfl⟩]

lemma count_springApplications_adjacent (a b : ℤ × ℤ) (h : Adjacent a b) :
    springApplications.count (a, b) = 1 := by
  have hA := h.1
  unfold inGrid GRID_ROWS GRID_COLS at hA
  obtain ⟨ha0, ha1, ha2, ha3⟩ := hA
  rw [count_springApplications]
  have hz1 : ∀ i : ℕ, i < 30 → i ≠ a.1.toNat →
      ((List.range 40).map fun m : ℕ => (cellApps (i : ℤ) (m : ℤ)).count (a, b)).sum = 0 := by
    intro i hi hik
    apply List.sum_eq_zero
    intro y hy
    simp only [List.mem_map, List.mem_range] at hy
    obtain ⟨m, hm, rfl⟩ := hy
    apply count_cellApps_of_ne
    intro he
    have h1 : a.1 = (i : ℤ) := congrArg Prod.fst he
    omega
  rw [sum_map_range_delta _ 30 a.1.toNat (by omega) hz1]
  have hc1 : ((a.1.toNat : ℕ) : ℤ) = a.1 := Int.toNat_of_nonneg ha0
  simp only [hc1]
  have hz2 : ∀ m : ℕ, m < 40 → m ≠ a.2.toNat →
      (cellApps a.1 (m : ℤ)).count (a, b) = 0 := by
    intro m hm hmk
    apply count_cellApps_of_ne
    intro he
    have h2 : a.2 = (m : ℤ) := congrArg Prod.snd he
    omega
  rw [sum_map_range_delta _ 40 a.2.toNat (by omega) hz2]
  have hc2 : ((a.2.toNat : ℕ) : ℤ) = a.2 := Int.toNat_of_nonneg ha2
  simp only [hc2]
  exact count_cellApps_self a b h

lemma adjacent_symm {a b : ℤ × ℤ} (h : Adjacent a b) : Adjacent b a := by
  obtain ⟨hA, hB, hc⟩ := h
  refine ⟨hB, hA, ?_⟩
  rcases hc with ⟨h1, h2⟩ | ⟨h1, h2⟩ | ⟨h1, h2⟩ | ⟨h1, h2⟩
  · exact Or.inr (Or.inl ⟨by omega, by omega⟩)
  · exact Or.inl ⟨by omega, by omega⟩
  · exact Or.inr (Or.inr (Or.inr ⟨by omega, by omega⟩))
  · exact Or.inr (Or.inr (Or.inl ⟨by omega, by omega⟩))

/-- What one `apply_spring_force` call for the pair `(a, b)` does to the two
endpoint dots when the distance guard does not fire: the force is added to
the first dot's velocity if it is not fixed, subtracted from the second dot's
velocity if it is not fixed, and fixed endpoints are left untouched. -/
def spring_edge_effect (a b : ℤ × ℤ) : Prop :=
  ∀ g : Grid, ¬ springDist (g a.1 a.2) (g b.1 b.2) < 0.001 →
    (((g a.1 a.2).fixed = false →
        ((apply_spring_force g a.1 a.2 b.1 b.2) a.1 a.2).vx
          = (g a.1 a.2).vx + springFx (g a.1 a.2) (g b.1 b.2) ∧
        ((apply_spring_force g a.1 a.2 b.1 b.2) a.1 a.2).vy
          = (g a.1 a.2).vy + springFy (g a.1 a.2) (g b.1 b.2)) ∧
     ((g b.1 b.2).fixed = false →
        ((apply_spring_force g a.1 a.2 b.1 b.2) b.1 b.2).vx
          = (g b.1 b.2).vx - springFx (g a.1 a.2) (g b.1 b.2) ∧
        ((apply_spring_force g a.1 a.2 b.1 b.2) b.1 b.2).vy
          = (g b.1 b.2).vy - springFy (g a.1 a.2) (g b.1 b.2)) ∧
     ((g a.1 a.2).fixed = true →
        (apply_spring_force g a.1 a.2 b.1 b.2) a.1 a.2 = g a.1 a.2) ∧
     ((g b.1 b.2).fixed = true →
        (apply_spring_force g a.1 a.2 b.1 b.2) b.1 b.2 = g b.1 b.2))

lemma spring_edge_effect_of_ne (a b : ℤ × ℤ) (hne : a.1 ≠ b.1 ∨ a.2 ≠ b.2) :
    spring_edge_effect a b := by
  intro g hdist
  have hna : ¬(a.1 = b.1 ∧ a.2 = b.2) := by
    rintro ⟨h1, h2⟩
    rcases hne with h | h
    · exact h h1
    · exact h h2
  have hnb : ¬(b.1 = a.1 ∧ b.2 = a.2) := by
    rintro ⟨h1, h2⟩
    rcases hne with h | h
    · exact h h1.symm
    · exact h h2.symm
  unfold apply_spring_force
  rw [if_neg hdist]
  dsimp only
  by_cases h1 : (g a.1 a.2).fixed = true
  · rw [if_pos h1]
    by_cases h2 : (g b.1 b.2).fixed = true
    · rw [if_pos h2]
      refine ⟨?_, ?_, ?_, ?_⟩
      · intro hfa
        rw [h1] at hfa
        exact absurd hfa (by simp)
      · intro hfb
        rw [h2] at hfb
        exact absurd hfb (by simp)
      · intro _; rfl
      · intro _; rfl
    · rw [if_neg h2]
      refine ⟨?_, ?_, ?_, ?_⟩
      · intro hfa
        rw [h1] at hfa
        exact absurd hfa (by simp)
      · intro hfb
        rw [setDot_same]
        exact ⟨rfl, rfl⟩
      · intro _
        rw [setDot_other _ _ _ _ _ _ hna]
      · intro hfb
        exact absurd hfb h2
  · rw [if_neg h1]
    rw [setDot_other _ _ _ _ _ _ hnb]
    by_cases h2 : (g b.1 b.2).fixed = true
    · rw [if_pos h2]
      refine ⟨?_, ?_, ?_, ?_⟩
      · intro hfa
        rw [setDot_same]
        exact ⟨rfl, rfl⟩
      · intro hfb
        rw [h2] at hfb
        exact absurd hfb (by simp)
      · intro hfa
        exact absurd hfa h1
      · intro _
        rw [setDot_other _ _ _ _ _ _ hnb]
    · rw [if_neg h2]
      refine ⟨?_, ?_, ?_, ?_⟩
      · intro hfa
        rw [setDot_other _ _ _ _ _ _ hna, setDot_same]
        exact ⟨rfl, rfl⟩
      · intro hfb
        rw [setDot_same]
        exact ⟨rfl, rfl⟩
      · intro hfa
        exact absurd hfa h1
      · intro hfb
        exact absurd hfb h2

/-! ### Pointer interaction: evaluating the scan of `find_dot_at_position` -/

lemma find?_split {α : Type} {p : α → Bool} {l : List α} {b : α} (h : l.find? p = some b) :
    p b = true ∧ ∃ l1 l2, l = l1 ++ b :: l2 ∧ ∀ a ∈ l1, p a = false := by
  induction l with
  | nil => simp [List.find?] at h
  | cons x xs ih =>
    by_cases hx : p x = true
    · rw [List.find?_cons_of_pos _ hx] at h
      obtain rfl : x = b := by injection h
      exact ⟨hx, [], xs, rfl, by simp⟩
    · rw [List.find?_cons_of_neg _ hx] at h
      obtain ⟨hb, l1, l2, heq, hl1⟩ := ih h
      refine ⟨hb, x :: l1, l2, by rw [heq]; rfl, ?_⟩
      intro a ha
      rcases List.mem_cons.mp ha with rfl | ha
      · simpa using hx
      · exact hl1 a ha

lemma handle_down_of_find (s : SimState) (mx my r c : ℤ)
    (h : find_dot_at_position s.dots mx my = some (r, c)) :
    handle_mouse_event s (.buttonDown mx my) =
      { dots := setDot s.dots r c ({ s.dots r c with fixed := true }),
        drag := { is_dragging := true, row := r, col := c } } := by
  simp only [handle_mouse_event, h]

lemma allCells_head : ∃ t, allCells = ((0 : ℤ), (0 : ℤ)) :: t := by
  unfold allCells
  rw [show (30 : ℕ) = 29 + 1 from rfl, show (40 : ℕ) = 39 + 1 from rfl,
    List.range_succ_eq_map, List.range_succ_eq_map]
  simp only [List.map_cons, List.flatMap_cons, List.map_map, List.cons_append, Nat.cast_zero]
  exact ⟨_, rfl⟩

lemma find_first_cell (g : Grid) (mx my : ℤ) (h : withinRadius g mx my (0, 0)) :
    find_dot_at_position g mx my = some (0, 0) := by
  obtain ⟨t, ht⟩ := allCells_head
  unfold find_dot_at_position
  rw [ht]
  apply List.find?_cons_of_pos
  exact @decide_eq_true _ (Classical.propDecidable _) h

lemma initialize_grid_x (r c : ℤ) : (initialize_grid r c).x = 107.5 + (c : ℝ) * 15 := by
  show (WINDOW_WIDTH - ((GRID_COLS : ℝ) - 1) * SPRING_REST_LENGTH) / 2
      + (c : ℝ) * SPRING_REST_LENGTH = 107.5 + (c : ℝ) * 15
  unfold WINDOW_WIDTH GRID_COLS SPRING_REST_LENGTH
  norm_num

lemma initialize_grid_y (r c : ℤ) : (initialize_grid r c).y = 82.5 + (r : ℝ) * 15 := by
  show (WINDOW_HEIGHT - ((GRID_ROWS : ℝ) - 1) * SPRING_REST_LENGTH) / 2
      + (r : ℝ) * SPRING_REST_LENGTH = 82.5 + (r : ℝ) * 15
  unfold WINDOW_HEIGHT GRID_ROWS SPRING_REST_LENGTH
  norm_num

lemma within_radius_00 (g : Grid) (mx my : ℤ) (h00 : g 0 0 = initialize_grid 0 0)
    (h : ((mx : ℝ) - 107.5) * ((mx : ℝ) - 107.5) + ((my : ℝ) - 82.5) * ((my : ℝ) - 82.5) < 100) :
    withinRadius g mx my (0, 0) := by
  unfold withinRadius pointerDist CLICK_DETECTION_RADIUS
  dsimp only
  rw [h00, initialize_grid_x, initialize_grid_y]
  rw [Real.sqrt_lt' (by norm_num : (0 : ℝ) < 10)]
  calc ((mx : ℝ) - (107.5 + (0 : ℤ) * 15)) * ((mx : ℝ) - (107.5 + (0 : ℤ) * 15)) +
        ((my : ℝ) - (82.5 + (0 : ℤ) * 15)) * ((my : ℝ) - (82.5 + (0 : ℤ) * 15))
      = ((mx : ℝ) - 107.5) * ((mx : ℝ) - 107.5) + ((my : ℝ) - 82.5) * ((my : ℝ) - 82.5) := by
        push_cast
        ring
    _ < 100 := h
    _ = 10 ^ 2 := by norm_num

lemma adjacent_ne {a b : ℤ × ℤ} (h : Adjacent a b) : a.1 ≠ b.1 ∨ a.2 ≠ b.2 := by
  obtain ⟨-, -, hc⟩ := h
  rcases hc with ⟨h1, h2⟩ | ⟨h1, h2⟩ | ⟨h1, h2⟩ | ⟨h1, h2⟩
  · exact Or.inl (by omega)
  · exact Or.inl (by omega)
  · exact Or.inr (by omega)
  · exact Or.inr (by omega)

/-- Concrete grid used to exercise the coincident-points guard: the dot at
cell (1,2) has been moved exactly onto the dot at cell (1,1). -/
noncomputable def coincident_grid : Grid :=
  setDot initialize_grid 1 2
    ({ initialize_grid 1 2 with x := (initialize_grid 1 1).x, y := (initialize_grid 1 1).y })

lemma coincident_dist : springDist (coincident_grid 1 1) (coincident_grid 1 2) < 0.001 := by
  have h1 : coincident_grid 1 1 = initialize_grid 1 1 :=
    setDot_other _ _ _ _ _ _ (by simp)
  have h2x : (coincident_grid 1 2).x = (initialize_grid 1 1).x := by
    show (setDot initialize_grid 1 2 _ 1 2).x = _
    rw [setDot_same]
  have h2y : (coincident_grid 1 2).y = (initialize_grid 1 1).y := by
    show (setDot initialize_grid 1 2 _ 1 2).y = _
    rw [setDot_same]
  unfold springDist
  rw [h1, h2x, h2y, sub_self, sub_self]
  norm_num

/-- Concrete interaction state: a drag of the dot (2,3) is in progress. -/
noncomputable def dragging_state : SimState :=
  { dots := initialize_grid, drag := { is_dragging := true, row := 2, col := 3 } }

/-- Concrete interaction state: a drag is in progress with target (5,5), and
the dot (5,5) is pinned (as a pointer-down on it would leave it). -/
noncomputable def pinned_state : SimState :=
  { dots := setDot initialize_grid 5 5 ({ initialize_grid 5 5 with fixed := true }),
    drag := { is_dragging := true, row := 5, col := 5 } }

/-! ### The claims -/

/-- C1 (amended): in the spring pass of `update_physics`, every structurally
adjacent pair {a, b} is processed exactly twice per step — once as the
directed application (a, b) and once as (b, a) — not exactly once; each
application computes the spring force and adds it to the first endpoint's
velocity if that endpoint is not pinned and subtracts it from the second
endpoint's velocity if that endpoint is not pinned. -/
theorem C1_spring_edge_applied_twice (a b : ℤ × ℤ) (h : Adjacent a b) :
    springApplications.count (a, b) = 1 ∧ springApplications.count (b, a) = 1 ∧
      spring_edge_effect a b :=
  ⟨count_springApplications_adjacent a b h,
   count_springApplications_adjacent b a (adjacent_symm h),
   spring_edge_effect_of_ne a b (adjacent_ne h)⟩

/-- C1 counterexample: the claim says each edge updates exactly once per
step, but the spring pass of `update_physics` processes the adjacent pair
{(0,0), (0,1)} twice per step (once in each orientation), so the number of
spring applications for that edge is 2, not 1. -/
theorem C1_counterexample :
    springApplications.count (((0, 0), (0, 1)) : (ℤ × ℤ) × (ℤ × ℤ)) +
      springApplications.count (((0, 1), (0, 0)) : (ℤ × ℤ) × (ℤ × ℤ)) = 2 := by
  rw [count_springApplications_adjacent (0, 0) (0, 1) (by decide),
    count_springApplications_adjacent (0, 1) (0, 0) (by decide)]

theorem C1_witness :
    Adjacent (0, 0) (0, 1) ∧
      (springApplications.count (((0, 0), (0, 1)) : (ℤ × ℤ) × (ℤ × ℤ)) = 1 ∧
        springApplications.count (((0, 1), (0, 0)) : (ℤ × ℤ) × (ℤ × ℤ)) = 1 ∧
        spring_edge_effect (0, 0) (0, 1)) :=
  ⟨by decide, C1_spring_edge_applied_twice (0, 0) (0, 1) (by decide)⟩

/-- C2: the claim states that a pointer-up never clears the pinned flag of
the permanent anchors, but the code has no such guard: pointer-down at
(108, 83) selects the anchor (0,0) (it is within the click radius), and the
subsequent pointer-up sets its `fixed` flag to `false`. -/
theorem C2_pointer_up_unpins_anchor :
    (initial_state.dots 0 0).fixed = true ∧
      ((run_events initial_state
          [.buttonDown 108 83, .buttonUp 108 83]).dots 0 0).fixed = false := by
  refine ⟨rfl, ?_⟩
  show ((handle_mouse_event (handle_mouse_event initial_state (.buttonDown 108 83))
      (.buttonUp 108 83)).dots 0 0).fixed = false
  rw [handle_down_of_find _ _ _ 0 0
    (find_first_cell _ _ _ (within_radius_00 _ _ _ rfl (by norm_num)))]
  simp [handle_mouse_event, setDot_same]

/-- C3: starting from the constructed grid, any number of physics steps with
no interaction leaves the positions of the two permanent anchors (0,0) and
(0, GRID_COLS-1) unchanged. -/
theorem C3_anchor_invariance :
    ∀ N : Nat,
      ((stepN N initialize_grid) 0 0).x = (initialize_grid 0 0).x ∧
      ((stepN N initialize_grid) 0 0).y = (initialize_grid 0 0).y ∧
      ((stepN N initialize_grid) 0 (GRID_COLS - 1)).x
        = (initialize_grid 0 (GRID_COLS - 1)).x ∧
      ((stepN N initialize_grid) 0 (GRID_COLS - 1)).y
        = (initialize_grid 0 (GRID_COLS - 1)).y := by
  intro N
  rw [stepN_fixed_dot initialize_grid 0 0 initialize_grid_anchor_left N,
    stepN_fixed_dot initialize_grid 0 (GRID_COLS - 1) initialize_grid_anchor_right N]
  exact ⟨rfl, rfl, rfl, rfl⟩

/-- C4: the constructed grid is at exact rest, and after any number of
physics steps with no interaction every dot's position is still exactly its
rest position and every velocity is still exactly zero. -/
theorem C4_rest_state_fixed_point :
    ∀ (N : Nat) (r c : ℤ),
      ((stepN N initialize_grid) r c).x = (initialize_grid r c).original_x ∧
      ((stepN N initialize_grid) r c).y = (initialize_grid r c).original_y ∧
      ((stepN N initialize_grid) r c).vx = 0 ∧
      ((stepN N initialize_grid) r c).vy = 0 := by
  intro N r c
  rw [stepN_init_grid]
  exact ⟨rfl, rfl, rfl, rfl⟩

/-- C5: whenever the distance between the two dots handed to
`apply_spring_force` is below the 0.001 epsilon (in particular for two
coincident dots at distance 0), the call returns the grid unchanged — no
velocity change and no division by the distance is performed. -/
theorem C5_division_guard (g : Grid) (ar ac br bc : ℤ)
    (h : springDist (g ar ac) (g br bc) < 0.001) :
    apply_spring_force g ar ac br bc = g := by
  unfold apply_spring_force
  rw [if_pos h]

theorem C5_witness :
    springDist (coincident_grid 1 1) (coincident_grid 1 2) < 0.001 ∧
      apply_spring_force coincident_grid 1 1 1 2 = coincident_grid :=
  ⟨coincident_dist, C5_division_guard _ _ _ _ _ coincident_dist⟩

/-- C6: the physics step is deterministic — two runs of N steps from equal
grids produce pointwise equal grids (the step is a pure function of the
state). -/
theorem C6_determinism (N : Nat) (g1 g2 : Grid) (h : ∀ r c : ℤ, g1 r c = g2 r c) :
    ∀ r c : ℤ, (stepN N g1) r c = (stepN N g2) r c := by
  have hg : g1 = g2 := funext fun r => funext fun c => h r c
  subst hg
  exact fun _ _ => rfl

theorem C6_witness :
    (∀ r c : ℤ, initialize_grid r c = initialize_grid r c) ∧
      ∀ r c : ℤ, (stepN 3 initialize_grid) r c = (stepN 3 initialize_grid) r c :=
  ⟨fun _ _ => rfl, C6_determinism 3 initialize_grid initialize_grid fun _ _ => rfl⟩

/-- C7: one `update_physics` step leaves every pinned dot completely
unchanged (position, velocity, rest position and flag), whatever the rest of
the grid looks like. -/
theorem C7_pinned_point_unchanged (g : Grid) (r c : ℤ) (h : (g r c).fixed = true) :
    (update_physics g) r c = g r c :=
  update_physics_fixed_dot_eq g r c h

theorem C7_witness :
    (initialize_grid 0 0).fixed = true ∧
      (update_physics initialize_grid) 0 0 = initialize_grid 0 0 :=
  ⟨initialize_grid_anchor_left,
   C7_pinned_point_unchanged initialize_grid 0 0 initialize_grid_anchor_left⟩

/-- C8 (amended): on pointer-down the controller selects the FIRST point in
row-major scan order whose distance to the pointer is below the fixed radius
10 — not the nearest such point; if one is found it is pinned, recorded in
the drag state and the state becomes Dragging, and if none is found the
state is unchanged. -/
theorem C8_first_match_selection (s : SimState) (mx my : ℤ) :
    (find_dot_at_position s.dots mx my = none →
      handle_mouse_event s (.buttonDown mx my) = s) ∧
    (∀ r c : ℤ, find_dot_at_position s.dots mx my = some (r, c) →
      withinRadius s.dots mx my (r, c) ∧
      (∃ l1 l2, allCells = l1 ++ (r, c) :: l2 ∧
        ∀ q ∈ l1, ¬ withinRadius s.dots mx my q) ∧
      handle_mouse_event s (.buttonDown mx my) =
        { dots := setDot s.dots r c ({ s.dots r c with fixed := true }),
          drag := { is_dragging := true, row := r, col := c } }) := by
  constructor
  · intro h
    simp only [handle_mouse_event, h]
  · intro r c h
    obtain ⟨hp, l1, l2, heq, hall⟩ := find?_split h
    have hp2 : @decide (withinRadius s.dots mx my (r, c))
        (Classical.propDecidable _) = true := hp
    refine ⟨@of_decide_eq_true _ (Classical.propDecidable _) hp2, ⟨l1, l2, heq, ?_⟩,
      handle_down_of_find s mx my r c h⟩
    intro q hq
    have hq2 : @decide (withinRadius s.dots mx my q)
        (Classical.propDecidable _) = false := hall q hq
    exact @of_decide_eq_false _ (Classical.propDecidable _) hq2

/-- C8 counterexample: with the freshly constructed grid and the pointer at
(116, 82), both (0,0) and (0,1) are within the click radius and (0,1) is
strictly nearer, yet `find_dot_at_position` returns (0,0) — the first point
in scan order, not the nearest. -/
theorem C8_counterexample :
    find_dot_at_position initialize_grid 116 82 = some (0, 0) ∧
      withinRadius initialize_grid 116 82 (0, 1) ∧
      pointerDist initialize_grid 116 82 (0, 1)
        < pointerDist initialize_grid 116 82 (0, 0) := by
  refine ⟨find_first_cell _ _ _ (within_radius_00 _ _ _ rfl (by norm_num)), ?_, ?_⟩
  · unfold withinRadius pointerDist CLICK_DETECTION_RADIUS
    dsimp only
    simp only [initialize_grid_x, initialize_grid_y]
    rw [Real.sqrt_lt' (by norm_num : (0 : ℝ) < 10)]
    push_cast
    norm_num
  · unfold pointerDist
    dsimp only
    simp only [initialize_grid_x, initialize_grid_y]
    apply Real.sqrt_lt_sqrt
    · push_cast
      norm_num
    · push_cast
      norm_num

theorem C8_witness :
    withinRadius initial_state.dots 116 82 (0, 0) ∧
      (∃ l1 l2, allCells = l1 ++ ((0 : ℤ), (0 : ℤ)) :: l2 ∧
        ∀ q ∈ l1, ¬ withinRadius initial_state.dots 116 82 q) ∧
      handle_mouse_event initial_state (.buttonDown 116 82) =
        { dots := setDot initial_state.dots 0 0 ({ initial_state.dots 0 0 with fixed := true }),
          drag := { is_dragging := true, row := 0, col := 0 } } :=
  (C8_first_match_selection initial_state 116 82).2 0 0
    (find_first_cell _ _ _ (within_radius_00 _ _ _ rfl (by norm_num)))

/-- C9: a pointer-move while a drag is active writes the pointer coordinates
directly into the target dot's position, leaving its velocity (and every
other field) unchanged, leaves every other dot unchanged, and leaves the
drag state unchanged. -/
theorem C9_pointer_move_hard_constraint (s : SimState) (mx my : ℤ)
    (h : s.drag.is_dragging = true) :
    (handle_mouse_event s (.motion mx my)).dots s.drag.row s.drag.col
        = { s.dots s.drag.row s.drag.col with x := (mx : ℝ), y := (my : ℝ) } ∧
    (∀ r c : ℤ, ¬(r = s.drag.row ∧ c = s.drag.col) →
      (handle_mouse_event s (.motion mx my)).dots r c = s.dots r c) ∧
    (handle_mouse_event s (.motion mx my)).drag = s.drag := by
  simp only [handle_mouse_event]
  rw [if_pos h]
  exact ⟨setDot_same _ _ _ _, fun r c hrc => setDot_other _ _ _ _ _ _ hrc, rfl⟩

theorem C9_witness :
    dragging_state.drag.is_dragging = true ∧
      ((handle_mouse_event dragging_state (.motion 300 200)).dots dragging_state.drag.row
          dragging_state.drag.col
        = { dragging_state.dots dragging_state.drag.row dragging_state.drag.col with
            x := ((300 : ℤ) : ℝ), y := ((200 : ℤ) : ℝ) } ∧
      (∀ r c : ℤ, ¬(r = dragging_state.drag.row ∧ c = dragging_state.drag.col) →
        (handle_mouse_event dragging_state (.motion 300 200)).dots r c
          = dragging_state.dots r c) ∧
      (handle_mouse_event dragging_state (.motion 300 200)).drag = dragging_state.drag) :=
  ⟨rfl, C9_pointer_move_hard_constraint dragging_state 300 200 rfl⟩

/-- C10: a pointer-down during an active drag that finds a different dot
re-targets the drag state to the new dot while the previously dragged dot
stays pinned; the following pointer-up un-pins only the new target, so the
earlier dot is still pinned after the drag ends. -/
theorem C10_retarget_keeps_previous_pinned (s : SimState) (mx my ux uy r1 c1 : ℤ)
    (_hdrag : s.drag.is_dragging = true)
    (hfind : find_dot_at_position s.dots mx my = some (r1, c1))
    (hne : ¬(s.drag.row = r1 ∧ s.drag.col = c1))
    (hpin : (s.dots s.drag.row s.drag.col).fixed = true) :
    (handle_mouse_event s (.buttonDown mx my)).drag
        = { is_dragging := true, row := r1, col := c1 } ∧
    ((handle_mouse_event s (.buttonDown mx my)).dots s.drag.row s.drag.col).fixed = true ∧
    ((handle_mouse_event (handle_mouse_event s (.buttonDown mx my))
        (.buttonUp ux uy)).dots s.drag.row s.drag.col).fixed = true ∧
    ((handle_mouse_event (handle_mouse_event s (.buttonDown mx my))
        (.buttonUp ux uy)).dots r1 c1).fixed = false ∧
    (handle_mouse_event (handle_mouse_event s (.buttonDown mx my))
        (.buttonUp ux uy)).drag.is_dragging = false := by
  rw [handle_down_of_find _ _ _ _ _ hfind]
  have hup : handle_mouse_event
      ({ dots := setDot s.dots r1 c1 ({ s.dots r1 c1 with fixed := true }),
         drag := { is_dragging := true, row := r1, col := c1 } } : SimState) (.buttonUp ux uy)
      = { dots := setDot (setDot s.dots r1 c1 ({ s.dots r1 c1 with fixed := true })) r1 c1
            ({ setDot s.dots r1 c1 ({ s.dots r1 c1 with fixed := true }) r1 c1 with
               fixed := false }),
          drag := { is_dragging := false, row := r1, col := c1 } } := rfl
  rw [hup]
  refine ⟨rfl, ?_, ?_, ?_, rfl⟩
  · dsimp only
    rw [setDot_other _ _ _ _ _ _ hne]
    exact hpin
  · dsimp only
    rw [setDot_other _ _ _ _ _ _ hne, setDot_other _ _ _ _ _ _ hne]
    exact hpin
  · dsimp only
    rw [setDot_same]

theorem C10_witness :
    pinned_state.drag.is_dragging = true ∧
      find_dot_at_position pinned_state.dots 108 83 = some (0, 0) ∧
      ¬(pinned_state.drag.row = 0 ∧ pinned_state.drag.col = 0) ∧
      (pinned_state.dots pinned_state.drag.row pinned_state.drag.col).fixed = true ∧
      ((handle_mouse_event pinned_state (.buttonDown 108 83)).drag
          = { is_dragging := true, row := 0, col := 0 } ∧
        ((handle_mouse_event pinned_state (.buttonDown 108 83)).dots pinned_state.drag.row
            pinned_state.drag.col).fixed = true ∧
        ((handle_mouse_event (handle_mouse_event pinned_state (.buttonDown 108 83))
            (.buttonUp 108 83)).dots pinned_state.drag.row pinned_state.drag.col).fixed
          = true ∧
        ((handle_mouse_event (handle_mouse_event pinned_state (.buttonDown 108 83))
            (.buttonUp 108 83)).dots 0 0).fixed = false ∧
        (handle_mouse_event (handle_mouse_event pinned_state (.buttonDown 108 83))
            (.buttonUp 108 83)).drag.is_dragging = false) := by
  have h00 : pinned_state.dots 0 0 = initialize_grid 0 0 := by
    show setDot initialize_grid 5 5 ({ initialize_grid 5 5 with fixed := true }) 0 0
        = initialize_grid 0 0
    exact setDot_other _ _ _ _ _ _ (by simp)
  have hfind : find_dot_at_position pinned_state.dots 108 83 = some (0, 0) :=
    find_first_cell _ _ _ (within_radius_00 _ _ _ h00 (by norm_num))
  have hne : ¬(pinned_state.drag.row = 0 ∧ pinned_state.drag.col = 0) := by
    simp [pinned_state]
  have hpin : (pinned_state.dots pinned_state.drag.row pinned_state.drag.col).fixed = true := by
    show (setDot initialize_grid 5 5 ({ initialize_grid 5 5 with fixed := true }) 5 5).fixed
        = true
    rw [setDot_same]
  exact ⟨rfl, hfind, hne, hpin,
    C10_retarget_keeps_previous_pinned pinned_state 108 83 108 83 0 0 rfl hfind hne hpin⟩

end DotMatrix